import Mathlib

/-!
Verification of the broadcast/supervision core of `server.py`
(MoodleCourseDownloader's HTTP/SSE bridge).

The Python source is shallowly embedded: every module-level mutable
(`LOG_HISTORY`, `STATE`, `PROGRESS_STATE`, `DOWNLOADED_FILES`,
`FILE_REGISTRY`, the broadcast fan-out, the single-flight thread flag)
becomes a field of `ServerState`, and each Python function becomes a pure
Lean function on that state.  External library calls (`os.path.*`,
`mimetypes.guess_type`, float formatting) are supplied through an `Env`
record of oracles; `json.loads` outcomes are passed in as `Option JValue`;
the wall clock (`current_timestamp`) is passed in as a `now : String`
argument.  Python numbers (JSON ints and floats) are modelled as `ℚ`.
-/

/-- Whitespace-strip from the right, modelling Python `str.rstrip()`. -/
def pyRstrip (s : String) : String :=
  ((s.toList.reverse.dropWhile Char.isWhitespace).reverse).asString

/-- Whitespace-strip on both sides, modelling Python `str.strip()`. -/
def pyStrip (s : String) : String :=
  (((s.toList.dropWhile Char.isWhitespace).reverse.dropWhile Char.isWhitespace).reverse).asString

/-- Python `int(q)` on a number: truncation toward zero. -/
def pyInt (q : ℚ) : Int :=
  q.num.tdiv (q.den : Int)

/-- Python `x or d` for an optional number `x` (absent, `None`, or falsy `0`
falls back to the default). -/
def pyOrQ (v : Option ℚ) (d : ℚ) : ℚ :=
  match v with
  | none => d
  | some q => if q = 0 then d else q

/-- Python `x or d` for an optional number, keeping `none` when both are
falsy: `some q` iff `x` is present and truthy. -/
def pyTruthyQ (v : Option ℚ) : Option ℚ :=
  match v with
  | none => none
  | some q => if q = 0 then none else some q

/-- Python `x or d` for an optional string with a plain-string default. -/
def pyOrStr (v : Option String) (d : String) : String :=
  match v with
  | none => d
  | some s => if s = "" then d else s

/-- Python `x or y` where both sides are optional strings (`None`/empty are
falsy). -/
def pyOrOptStr (v : Option String) (d : Option String) : Option String :=
  match v with
  | none => d
  | some s => if s = "" then d else some s

/-- Truthiness of an optional string (`None` and `""` are falsy). -/
def pyTruthyStr (v : Option String) : Bool :=
  match v with
  | none => false
  | some s => s ≠ ""

/-- Parsed JSON values, the result type of `json.loads`. -/
inductive JValue where
  | null
  | bool (b : Bool)
  | num (q : ℚ)
  | str (s : String)
  | arr (elems : List JValue)
  | obj (fields : List (String × JValue))

/-- Lookup `d.get(k)` on a parsed JSON object given as a field list. -/
def jGet (fields : List (String × JValue)) (k : String) : Option JValue :=
  (fields.find? (fun kv => kv.1 = k)).map (fun kv => kv.2)

/-- Python truthiness of a JSON value (`None`, `False`, `0`, `""`, `[]`,
`{}` are falsy). -/
def pyTruthyJ : JValue → Bool
  | .null => false
  | .bool b => b
  | .num q => if q = 0 then false else true
  | .str s => s ≠ ""
  | .arr elems => !elems.isEmpty
  | .obj fields => !fields.isEmpty

/-- Python `str()` on a JSON value.  Exact for strings, booleans and
`None`; composite and numeric renderings are placeholders (no claim in
this development inspects them). -/
def jStr : JValue → String
  | .null => "None"
  | .bool b => if b then "True" else "False"
  | .num q => toString q.num
  | .str s => s
  | .arr _ => "[...]"
  | .obj _ => "\x7b...\x7d"

/-- Read an optional JSON field as a number (JSON numbers; Python also
accepts booleans, with `int(True) = 1`).  Truthy non-numeric values would
raise in the source and are outside this model. -/
def jNumField (v : Option JValue) : Option ℚ :=
  match v with
  | some (.num q) => some q
  | some (.bool b) => some (if b then 1 else 0)
  | _ => none

/-- Read an optional JSON field as a string (non-string values are treated
as absent; no claim depends on non-string payloads in these slots). -/
def jStrField (v : Option JValue) : Option String :=
  match v with
  | some (.str s) => some s
  | _ => none

/-- One entry of `LOG_HISTORY` / a broadcast `log` event
(src/server.py `append_log`): always carries `stream`, `message`, `time`,
plus optional extra key/value pairs (`level`, `context`, `url`). -/
structure LogEntry where
  stream : String
  message : String
  time : String
  extra : List (String × JValue)

/-- The `PROGRESS_STATE` dict (src/server.py lines 38-50). -/
structure ProgressState where
  total : Int
  completed : Int
  active : Int
  pending : Int
  percent : ℚ
  startedAt : Option String
  lastUpdated : Option String
  stage : Option String
  current : Option String
  lastCompleted : Option String
  message : Option String

/-- A broadcast `progress` event (src/server.py `update_progress_state`):
`Option` fields model keys that are only present conditionally. -/
structure ProgressEntry where
  time : String
  total : Int
  completed : Int
  active : Int
  pending : Int
  percent : ℚ
  startedAt : Option String
  stage : Option String
  current : Option String
  lastCompleted : Option String
  message : Option String

/-- Typed view of a structured `progress` payload from the worker
(the JSON object handed to `update_progress_state`). -/
structure ProgressPayload where
  total : Option ℚ
  completed : Option ℚ
  active : Option ℚ
  pending : Option ℚ
  percent : Option ℚ
  startedAt : Option String
  stage : Option String
  current : Option String
  lastCompleted : Option String
  message : Option String

/-- The descriptor built by `register_download`
(src/server.py lines 214-227). -/
structure FileDescriptor where
  id : String
  name : String
  relativePath : String
  sectionPath : String
  sizeBytes : Int
  sizeHuman : String
  extension : String
  mime : String
  previewable : Bool
  resourceName : Option String
  url : Option String
  downloadedAt : String

/-- Typed view of the nested `file` object of a structured `download`
payload. -/
structure FilePayload where
  path : Option String
  name : Option String
  relativePath : Option String
  sectionPath : Option String
  extension : Option String
  mime : Option String
  sizeBytes : Option ℚ
  sizeHuman : Option String
  resourceName : Option String
  url : Option String
  downloadedAt : Option String

/-- An event handed to `broadcast` (src/server.py line 121): one of the
dict shapes built by `append_log`, `update_progress_state`,
`register_download` and `set_status`. -/
inductive BEvent where
  | log (e : LogEntry)
  | progress (e : ProgressEntry)
  | download (time : String) (file : FileDescriptor)
  | status (status : String) (details : List (String × JValue))

/-- Whether a broadcast event carries a `time` key: `log`, `progress` and
`download` dicts always set one (structure fields `time` above), a
`status` dict only if a detail named `"time"` was passed. -/
def hasTimestamp : BEvent → Bool
  | .log _ => true
  | .progress _ => true
  | .download _ _ => true
  | .status _ details => details.any (fun kv => kv.1 = "time")

/-- All module-level mutable state of src/server.py, plus `broadcasts`,
the ordered trace of every event handed to `broadcast`, `running`, the
single-flight "scraper thread is alive" flag, and `spawned`, the count of
worker threads started. -/
structure ServerState where
  status : String
  logHistory : List LogEntry
  progress : ProgressState
  downloads : List FileDescriptor
  fileRegistry : List (String × String)
  broadcasts : List BEvent
  running : Bool
  spawned : Nat

/-- Oracles for external library calls made by `register_download` and
`format_size`. -/
structure Env where
  getsize : String → Option ℚ
  relpath : String → String
  splitextExt : String → String
  basename : String → String
  guessMime : String → Option String
  sep : String
  fmtFixed : ℚ → Nat → String

/-- Initial contents of `PROGRESS_STATE` (src/server.py lines 38-50),
also the value `reset_run_state` restores. -/
def initialProgress : ProgressState :=
  { total := 0, completed := 0, active := 0, pending := 0, percent := 0,
    startedAt := none, lastUpdated := none, stage := some "idle",
    current := none, lastCompleted := none, message := none }

/-- The server's state at module load. -/
def initState : ServerState :=
  { status := "idle", logHistory := [], progress := initialProgress,
    downloads := [], fileRegistry := [], broadcasts := [],
    running := false, spawned := 0 }

/-- A concrete environment used to instantiate theorems with hypotheses. -/
def defaultEnv : Env :=
  { getsize := fun _ => none, relpath := fun p => p,
    splitextExt := fun _ => "", basename := fun p => p,
    guessMime := fun _ => none, sep := "/",
    fmtFixed := fun _ _ => "0" }

/-- Capacity of `LOG_HISTORY = deque(maxlen=500)` (src/server.py line 29). -/
def LOG_CAPACITY : Nat := 500

/-- Capacity of `DOWNLOADED_FILES = deque(maxlen=300)` (src/server.py line 51). -/
def FILES_CAPACITY : Nat := 300

/-- Capacity of the `queue.Queue(maxsize=500)` per SSE client (src/server.py line 101). -/
def MAILBOX_CAPACITY : Nat := 500

/-- Model of `deque.append` on a deque with `maxlen = cap`: append on the right,
evicting from the left when full. -/
def dequeAppend {α : Type} (cap : Nat) (l : List α) (e : α) : List α :=
  let h := l ++ [e]
  h.drop (h.length - cap)

/-- Dict update `d[k] = v` on an association-list model of a dict. -/
def dictInsert (k v : String) (d : List (String × String)) : List (String × String) :=
  (d.filter (fun kv => kv.1 ≠ k)) ++ [(k, v)]

/-- Dict lookup `d.get(k)`. -/
def dictGet (d : List (String × String)) (k : String) : Option String :=
  (d.find? (fun kv => kv.1 = k)).map (fun kv => kv.2)

/-- The last event handed to `broadcast` so far, if any. -/
def lastBroadcast (s : ServerState) : Option BEvent :=
  s.broadcasts.getLast?

/-- Model of `append_log` (src/server.py lines 129-140): build a log entry carrying
the current timestamp, append it to the bounded history and broadcast it. -/
def append_log (now stream message : String) (extra : List (String × JValue))
    (s : ServerState) : ServerState × LogEntry :=
  let entry : LogEntry := { stream := stream, message := message, time := now, extra := extra }
  ({ s with logHistory := dequeAppend LOG_CAPACITY s.logHistory entry,
            broadcasts := s.broadcasts ++ [.log entry] }, entry)

/-- Model of `set_status` (src/server.py lines 279-284): record the status string
and broadcast a `status` event made of `type`, `status` and the caller's
extra details only. -/
def set_status (status : String) (details : List (String × JValue))
    (s : ServerState) : ServerState :=
  { s with status := status, broadcasts := s.broadcasts ++ [.status status details] }

/-- Model of `update_progress_state` (src/server.py lines 143-181): coerce the
payload's counters with `int(... or default)`, clamp the percentage into
`[0, 100]`, refresh `PROGRESS_STATE` and broadcast a `progress` event. -/
def update_progress_state (now : String) (p : ProgressPayload)
    (s : ServerState) : ServerState × ProgressEntry :=
  let total := pyInt (pyOrQ p.total 0)
  let completed := pyInt (pyOrQ p.completed 0)
  let active := pyInt (pyOrQ p.active 0)
  let pending := pyInt (pyOrQ p.pending ((max (total - completed - active) 0 : Int) : ℚ))
  let percentRaw := pyOrQ p.percent
    (if total = 0 then 100 else ((completed : ℚ) / (total : ℚ)) * 100)
  let percent := max (0 : ℚ) (min 100 percentRaw)
  let startedAt := pyOrOptStr p.startedAt s.progress.startedAt
  let ps : ProgressState :=
    { total := total, completed := completed, active := active, pending := pending,
      percent := percent, startedAt := startedAt, lastUpdated := some now,
      stage := p.stage, current := p.current, lastCompleted := p.lastCompleted,
      message := p.message }
  let entry : ProgressEntry :=
    { time := now, total := total, completed := completed, active := active,
      pending := pending, percent := percent,
      startedAt := if pyTruthyStr startedAt then startedAt else none,
      stage := if pyTruthyStr p.stage then p.stage else none,
      current := p.current, lastCompleted := p.lastCompleted, message := p.message }
  ({ s with progress := ps, broadcasts := s.broadcasts ++ [.progress entry] }, entry)

/-- UTF-8 encoding of one code point (model of `str.encode('utf-8')`). -/
def utf8Bytes (n : Nat) : List Nat :=
  if n < 128 then [n]
  else if n < 2048 then [192 + n / 64, 128 + n % 64]
  else if n < 65536 then [224 + n / 4096, 128 + (n / 64) % 64, 128 + n % 64]
  else [240 + n / 262144, 128 + (n / 4096) % 64, 128 + (n / 64) % 64, 128 + n % 64]

/-- UTF-8 byte sequence of a string. -/
def strBytes (s : String) : List Nat :=
  s.toList.flatMap (fun c => utf8Bytes c.toNat)

/-- The URL-safe base64 alphabet (`base64.urlsafe_b64encode`). -/
def b64Alphabet : List Char :=
  "ABCDEFGHIJKLMNOPQRSTUVWXYZabcdefghijklmnopqrstuvwxyz0123456789-_".toList

/-- Character of one 6-bit group. -/
def b64Char (n : Nat) : Char :=
  b64Alphabet.getD n 'A'

/-- URL-safe base64 of a byte list, with `=` padding. -/
def b64Encode : List Nat → String
  | [] => ""
  | [a] =>
    String.mk [b64Char (a / 4), b64Char (a % 4 * 16)] ++ "=="
  | [a, b] =>
    String.mk [b64Char (a / 4), b64Char (a % 4 * 16 + b / 16), b64Char (b % 16 * 4)] ++ "="
  | a :: b :: c :: rest =>
    String.mk [b64Char (a / 4), b64Char (a % 4 * 16 + b / 16),
               b64Char (b % 16 * 4 + c / 64), b64Char (c % 64)] ++ b64Encode rest

/-- Model of `file_id = base64.urlsafe_b64encode(file_path.encode('utf-8')).decode('ascii')`
(src/server.py line 191): a pure, deterministic function of the path. -/
def fileIdOf (path : String) : String :=
  b64Encode (strBytes path)

/-- The `while value >= 1024 and index < len(units) - 1` loop of
`format_size` (src/server.py lines 90-92). -/
def fsLoop (v : ℚ) (i : Nat) : ℚ × Nat :=
  if h : 1024 ≤ v ∧ i < 4 then fsLoop (v / 1024) (i + 1) else (v, i)
termination_by 4 - i
decreasing_by omega

/-- Model of `format_size` (src/server.py lines 84-94); the f-string number
rendering is the environment's `fmtFixed`. -/
def format_size (env : Env) (numBytes : Int) : String :=
  if numBytes ≤ 0 then "0 B"
  else
    let vi := fsLoop (numBytes : ℚ) 0
    let precision := if 10 ≤ vi.1 ∨ vi.2 = 0 then 0 else 1
    env.fmtFixed vi.1 precision ++ " " ++ (["B", "KB", "MB", "GB", "TB"].getD vi.2 "B")

/-- The descriptor dict built by `register_download`
(src/server.py lines 191-227) for a file payload whose `path` is the
non-empty string `path`. -/
def mkDescriptor (env : Env) (now : String) (fi : FilePayload) (path : String) :
    FileDescriptor :=
  let fileId := fileIdOf path
  let sizeBytes : Int :=
    match pyTruthyQ fi.sizeBytes with
    | some q => pyInt q
    | none =>
      match env.getsize path with
      | some g => pyInt g
      | none => 0
  let relativePath := (pyOrStr fi.relativePath (env.relpath path)).replace env.sep "/"
  let sectionPath0 := pyOrStr fi.sectionPath ""
  let sectionPath := if sectionPath0 = "" then "" else sectionPath0.replace env.sep "/"
  let extension := (pyOrStr fi.extension (env.splitextExt path)).toLower
  let mime0 : Option String :=
    match pyOrOptStr fi.mime none with
    | some m => some m
    | none => pyOrOptStr (env.guessMime path) none
  let mime1 : Option String :=
    match mime0 with
    | some m => some m
    | none => if extension = "md" then some "text/markdown" else none
  let previewable :=
    match mime1 with
    | some m => m.startsWith "image/" || m = "application/pdf" ||
        ["text/plain", "text/markdown", "text/csv", "application/json",
         "application/xml"].contains m
    | none => extension ≠ "" &&
        ["pdf", "txt", "md", "json", "csv"].contains extension
  let downloadedAt := pyOrStr fi.downloadedAt now
  { id := fileId,
    name := pyOrStr fi.name (env.basename path),
    relativePath := relativePath,
    sectionPath := sectionPath,
    sizeBytes := sizeBytes,
    sizeHuman := pyOrStr fi.sizeHuman (format_size env sizeBytes),
    extension := extension,
    mime := mime1.getD "application/octet-stream",
    previewable := previewable,
    resourceName := fi.resourceName,
    url := fi.url,
    downloadedAt := downloadedAt }

/-- Delete the entry at the highest index satisfying `p`, if any: models
`existing = {item.get('id'): idx for idx, item in enumerate(...)}` (later
indices overwrite earlier ones) followed by `del ...[existing[file_id]]`. -/
def eraseLastP {α : Type} (p : α → Bool) (l : List α) : List α :=
  (l.reverse.eraseP p).reverse

/-- Model of `register_download` (src/server.py lines 184-237): `fileObj` is the
payload's nested `file` object (`none` when absent or not a dict).
Registers the id, dedups the download list by id, prepends the fresh
descriptor (deque `appendleft`, evicting on the right past capacity) and
broadcasts a `download` event. -/
def register_download (env : Env) (now : String) (fileObj : Option FilePayload)
    (s : ServerState) : ServerState × Option (String × FileDescriptor) :=
  match fileObj with
  | none => (s, none)
  | some fi =>
    match fi.path with
    | none => (s, none)
    | some path =>
      if path = "" then (s, none)
      else
        let d := mkDescriptor env now fi path
        let deduped := eraseLastP (fun x => x.id = d.id) s.downloads
        ({ s with fileRegistry := dictInsert d.id path s.fileRegistry,
                  downloads := (d :: deduped).take FILES_CAPACITY,
                  broadcasts := s.broadcasts ++ [.download d.downloadedAt d] },
         some (d.downloadedAt, d))

/-- Conversion of a parsed `progress` JSON object to the typed payload
used by `update_progress_state`. -/
def toProgressPayload (fields : List (String × JValue)) : ProgressPayload :=
  { total := jNumField (jGet fields "total"),
    completed := jNumField (jGet fields "completed"),
    active := jNumField (jGet fields "active"),
    pending := jNumField (jGet fields "pending"),
    percent := jNumField (jGet fields "percent"),
    startedAt := jStrField (jGet fields "startedAt"),
    stage := jStrField (jGet fields "stage"),
    current := jStrField (jGet fields "current"),
    lastCompleted := jStrField (jGet fields "lastCompleted"),
    message := jStrField (jGet fields "message") }

/-- Conversion of `data.get('file')` to the typed file payload: `none`
unless the value is a JSON object (`isinstance(file_info, dict)`). -/
def toFileObj : Option JValue → Option FilePayload
  | some (.obj f) => some
      { path := jStrField (jGet f "path"),
        name := jStrField (jGet f "name"),
        relativePath := jStrField (jGet f "relativePath"),
        sectionPath := jStrField (jGet f "sectionPath"),
        extension := jStrField (jGet f "extension"),
        mime := jStrField (jGet f "mime"),
        sizeBytes := jNumField (jGet f "sizeBytes"),
        sizeHuman := jStrField (jGet f "sizeHuman"),
        resourceName := jStrField (jGet f "resourceName"),
        url := jStrField (jGet f "url"),
        downloadedAt := jStrField (jGet f "downloadedAt") }
  | _ => none

/-- Model of `handle_structured_message` (src/server.py lines 240-265): dispatch a
parsed JSON line on its `type` field; returns the updated state and the
Python function's boolean (`True` when the message was consumed). -/
def handle_structured_message (env : Env) (now : String) (data : JValue)
    (s : ServerState) : ServerState × Bool :=
  match data with
  | .obj fields =>
    match jGet fields "type" with
    | some (.str t) =>
      if t = "log" then
        match jGet fields "message" with
        | none => (s, true)
        | some .null => (s, true)
        | some msg =>
          let level := jStr ((jGet fields "level").getD (.str "info"))
          let streamDefault :=
            JValue.str (if level = "warn" || level = "error" then "stderr" else "stdout")
          let sv := (jGet fields "stream").getD .null
          let derived := if pyTruthyJ sv then sv else streamDefault
          let extra :=
            (if (jGet fields "level").isSome then [("level", JValue.str level)] else []) ++
            (if (jGet fields "context").isSome then
              [("context", (jGet fields "context").getD .null)] else []) ++
            (if (jGet fields "url").isSome then
              [("url", (jGet fields "url").getD .null)] else [])
          ((append_log now (jStr derived) (jStr msg) extra s).1, true)
      else if t = "progress" then
        ((update_progress_state now (toProgressPayload fields) s).1, true)
      else if t = "download" then
        ((register_download env now (toFileObj (jGet fields "file")) s).1, true)
      else (s, false)
    | _ => (s, false)
  | _ => (s, false)

/-- Whether a parsed line would be consumed by the structured dispatch:
a JSON object whose `type` field is the string `log`, `progress` or
`download`. -/
def recognized_message (data : JValue) : Bool :=
  match data with
  | .obj fields =>
    match jGet fields "type" with
    | some (.str t) => t = "log" || t = "progress" || t = "download"
    | _ => false
  | _ => false

/-- Model of `process_scraper_line` (src/server.py lines 268-276).  `parsed` is the
outcome of `json.loads` on the stripped line (`none` models
`JSONDecodeError`); blank lines are consumed without parsing. -/
def process_scraper_line (env : Env) (now line : String) (parsed : Option JValue)
    (s : ServerState) : ServerState × Bool :=
  if pyStrip line = "" then (s, true)
  else
    match parsed with
    | none => (s, false)
    | some payload => handle_structured_message env now payload s

/-- One iteration of `run_scraper`'s `pump` loop
(src/server.py lines 452-461): lines the structured path does not consume
are printed to the supervisor's own stdout with a `[scraper:<name>]`
tag; the second component is that printed line, if any. -/
def pump_line (env : Env) (now line : String) (parsed : Option JValue)
    (name : String) (s : ServerState) : ServerState × Option String :=
  match process_scraper_line env now line parsed s with
  | (s1, true) => (s1, none)
  | (s1, false) =>
    let stripped := pyRstrip line
    if stripped = "" then (s1, none)
    else (s1, some ("[scraper:" ++ name ++ "] " ++ stripped))

/-- Model of `reset_run_state` (src/server.py lines 66-81): restore
`PROGRESS_STATE` to its initial contents and clear `DOWNLOADED_FILES` and
`FILE_REGISTRY`; nothing else is touched. -/
def reset_run_state (s : ServerState) : ServerState :=
  { s with progress := initialProgress, downloads := [], fileRegistry := [] }

/-- Model of `scraper_running` (src/server.py lines 397-399). -/
def scraper_running (s : ServerState) : Bool :=
  s.running

/-- Model of `start_scraper` (src/server.py lines 479-487).  The body runs under
`SCRAPER_LOCK`, so two calls are serialized; a call is one atomic step
here.  On acceptance the worker thread is started (`spawned` increments,
`running` becomes true). -/
def start_scraper (s : ServerState) : ServerState × Bool × Option String :=
  if scraper_running s then (s, false, some "Scraper is already running")
  else
    ({ reset_run_state s with running := true, spawned := s.spawned + 1 },
     true, none)

/-- The terminal step of `run_scraper` (src/server.py lines 469-476):
after the worker exits with `code`, publish `set_status("finished",
code=code)` and clear the thread/process slots. -/
def run_scraper_exit (code : Int) (s : ServerState) : ServerState :=
  { set_status "finished" [("code", JValue.num (code : ℚ))] s with running := false }

/-- Bounded deque-style push used by `StreamClient.push`
(src/server.py lines 104-118): a full mailbox drops its oldest entry
(`get_nowait`) to admit the new message (`put_nowait`); the pusher never
waits.  The list front is the oldest queued message. -/
def pushBounded {α : Type} (cap : Nat) (q : List α) (m : α) : List α :=
  if q.length < cap then q ++ [m] else q.tail ++ [m]

/-- One SSE connection's mailbox (src/server.py class `StreamClient`). -/
structure StreamClient where
  alive : Bool
  queue : List BEvent

/-- Model of `StreamClient.push` (src/server.py lines 104-118): no-op on a dead
client, bounded drop-oldest push otherwise. -/
def StreamClient.push (c : StreamClient) (m : BEvent) : StreamClient :=
  if c.alive then { c with queue := pushBounded MAILBOX_CAPACITY c.queue m } else c

/-- What `_handle_stream` writes to the observer.  Snapshot items mirror
the exact dicts built at src/server.py lines 592-598: stored log entries
verbatim, a status dict of the current status string only, a progress
dict of the whole `PROGRESS_STATE`, and a download dict per registered
file; `live` items are mailbox messages forwarded by the drain loop. -/
inductive Emission where
  | log (e : LogEntry)
  | statusSnap (status : String)
  | progressSnap (p : ProgressState)
  | downloadSnap (f : FileDescriptor)
  | live (e : BEvent)

/-- The snapshot block `_handle_stream` sends first
(src/server.py lines 592-599). -/
def snapshot_emissions (s : ServerState) : List Emission :=
  s.logHistory.map Emission.log ++
  [Emission.statusSnap s.status, Emission.progressSnap s.progress] ++
  s.downloads.map Emission.downloadSnap

/-- Model of `_handle_stream` (src/server.py lines 581-609) as the sequence of
emissions towards one observer: the snapshot block, then the mailbox
messages the drain loop delivers, in arrival order (keepalive comments,
which carry no event, are not modelled). -/
def handle_stream (s : ServerState) (delivered : List BEvent) : List Emission :=
  snapshot_emissions s ++ delivered.map Emission.live

lemma pushBounded_drop {α : Type} (cap : Nat) (hc : 0 < cap) (l : List α) (m : α) :
    pushBounded cap (l.drop (l.length - cap)) m =
      (l ++ [m]).drop ((l ++ [m]).length - cap) := by
  rcases lt_or_ge l.length cap with h | h
  · have h0 : l.length - cap = 0 := by omega
    have h1 : (l ++ [m]).length - cap = 0 := by
      simp only [List.length_append, List.length_singleton]; omega
    rw [h0, h1]
    simp [pushBounded, h]
  · have hlen : (l.drop (l.length - cap)).length = cap := by
      rw [List.length_drop]; omega
    have hnotlt : ¬ (l.drop (l.length - cap)).length < cap := by omega
    simp only [pushBounded, hnotlt, if_false]
    rw [List.tail_drop]
    have h2 : (l ++ [m]).length - cap = l.length - cap + 1 := by
      simp only [List.length_append, List.length_singleton]; omega
    rw [h2, List.drop_append_of_le_length (by omega)]

lemma foldl_pushBounded_drop {α : Type} (cap : Nat) (hc : 0 < cap) (evs : List α) :
    evs.foldl (pushBounded cap) [] = evs.drop (evs.length - cap) := by
  induction evs using List.reverseRecOn with
  | nil => simp
  | append_singleton l m ih =>
    rw [List.foldl_append, List.foldl_cons, List.foldl_nil, ih]
    exact pushBounded_drop cap hc l m

lemma foldl_push_alive (evs : List BEvent) (q : List BEvent) :
    evs.foldl StreamClient.push ⟨true, q⟩ =
      ⟨true, evs.foldl (pushBounded MAILBOX_CAPACITY) q⟩ := by
  induction evs generalizing q with
  | nil => rfl
  | cons e evs ih =>
    rw [List.foldl_cons, List.foldl_cons]
    have hone : StreamClient.push ⟨true, q⟩ e =
        (⟨true, pushBounded MAILBOX_CAPACITY q e⟩ : StreamClient) := rfl
    rw [hone, ih]

lemma eraseP_filter_nil {α : Type} (p : α → Bool) (l : List α)
    (h : (l.filter p).length ≤ 1) : (l.eraseP p).filter p = [] := by
  induction l with
  | nil => rfl
  | cons a l ih =>
    by_cases hp : p a
    · rw [List.eraseP_cons_of_pos hp]
      rw [List.filter_cons_of_pos hp] at h
      simp only [List.length_cons] at h
      have h0 : (l.filter p).length = 0 := by omega
      exact List.length_eq_zero.mp h0
    · rw [List.eraseP_cons_of_neg (by simpa using hp)]
      rw [List.filter_cons_of_neg (by simpa using hp)] at h
      rw [List.filter_cons_of_neg (by simpa using hp)]
      exact ih h

lemma eraseLastP_filter_nil {α : Type} (p : α → Bool) (l : List α)
    (h : (l.filter p).length ≤ 1) : (eraseLastP p l).filter p = [] := by
  unfold eraseLastP
  have hrev : (l.reverse.filter p).length ≤ 1 := by
    rw [List.filter_reverse, List.length_reverse]; exact h
  have := eraseP_filter_nil p l.reverse hrev
  rw [List.filter_reverse, this, List.reverse_nil]

lemma filter_take_nil {α : Type} (p : α → Bool) (l : List α) (n : Nat)
    (h : l.filter p = []) : (l.take n).filter p = [] := by
  have hsub : List.Sublist ((l.take n).filter p) (l.filter p) :=
    List.Sublist.filter p (List.take_sublist n l)
  rw [h] at hsub
  exact List.sublist_nil.mp hsub

lemma filter_take_cons_of_filter_nil {α : Type} (p : α → Bool) (a : α) (l : List α)
    (n : Nat) (hn : 0 < n) (ha : p a = true) (hl : l.filter p = []) :
    ((a :: l).take n).filter p = [a] := by
  cases n with
  | zero => omega
  | succ m =>
    rw [List.take_succ_cons, List.filter_cons_of_pos ha, filter_take_nil p l m hl]

lemma head?_take_cons {α : Type} (a : α) (l : List α) (n : Nat) (hn : 0 < n) :
    ((a :: l).take n).head? = some a := by
  cases n with
  | zero => omega
  | succ m => rw [List.take_succ_cons]; rfl

lemma pyStrip_empty_of_rstrip_empty (line : String) (h : pyRstrip line = "") :
    pyStrip line = "" := by
  have hdata : (line.toList.reverse.dropWhile Char.isWhitespace).reverse = [] :=
    congrArg String.data h
  have h3 : line.toList.reverse.dropWhile Char.isWhitespace = [] := by
    simpa using congrArg List.reverse hdata
  have hall := List.dropWhile_eq_nil_iff.mp h3
  have h4 : line.toList.dropWhile Char.isWhitespace = [] :=
    List.dropWhile_eq_nil_iff.mpr (fun c hc => hall c (List.mem_reverse.mpr hc))
  show (((line.toList.dropWhile Char.isWhitespace).reverse.dropWhile
    Char.isWhitespace).reverse).asString = ""
  rw [h4]
  rfl

lemma handle_unrecognized (env : Env) (now : String) (v : JValue) (s : ServerState)
    (h : recognized_message v = false) :
    handle_structured_message env now v s = (s, false) := by
  cases v with
  | null => rfl
  | bool b => rfl
  | num q => rfl
  | str t => rfl
  | arr elems => rfl
  | obj fields =>
    cases hj : jGet fields "type" with
    | none => simp [handle_structured_message, hj]
    | some val =>
      cases val with
      | str t =>
        simp only [recognized_message, hj, Bool.or_eq_false_iff,
          decide_eq_false_iff_not] at h
        simp [handle_structured_message, hj, h.1.1, h.1.2, h.2]
      | null => simp [handle_structured_message, hj]
      | bool b => simp [handle_structured_message, hj]
      | num q => simp [handle_structured_message, hj]
      | arr elems => simp [handle_structured_message, hj]
      | obj f2 => simp [handle_structured_message, hj]

/-- C10: `reset_run_state` restores every progress field to its initial
value and empties the downloads sequence and the file-id registry (so no
id resolves any more), while leaving the status field and the log history
exactly unchanged. -/
theorem reset_run_state_frame (s : ServerState) :
    (reset_run_state s).progress = initialProgress ∧
    (reset_run_state s).downloads = [] ∧
    (reset_run_state s).fileRegistry = [] ∧
    (∀ k, dictGet (reset_run_state s).fileRegistry k = none) ∧
    (reset_run_state s).status = s.status ∧
    (reset_run_state s).logHistory = s.logHistory := by
  exact ⟨rfl, rfl, rfl, fun k => rfl, rfl, rfl⟩

/-- C9: when the worker exits, `run_scraper` publishes a terminal status
event carrying the exit code unchanged; the terminal status is always
`finished`, never `error`, whatever the exit code. -/
theorem worker_exit_code_passthrough (code : Int) (s : ServerState) :
    (run_scraper_exit code s).status = "finished" ∧
    (run_scraper_exit code s).status ≠ "error" ∧
    lastBroadcast (run_scraper_exit code s) =
      some (.status "finished" [("code", JValue.num (code : ℚ))]) := by
  have h1 : (run_scraper_exit code s).status = "finished" := rfl
  have h2 : (run_scraper_exit code s).status ≠ "error" := by rw [h1]; decide
  refine ⟨h1, h2, ?_⟩
  show (s.broadcasts ++ [BEvent.status "finished" [("code", JValue.num (code : ℚ))]]).getLast? = _
  rw [List.getLast?_concat]

/-- C8: a newly-opened stream session emits the full snapshot — every log
history entry in original order, the current status, the current
progress, and every registered download — before any event delivered from
its mailbox after the session opened. -/
theorem stream_snapshot_first (s : ServerState) (delivered : List BEvent) :
    (handle_stream s delivered).take (snapshot_emissions s).length =
      s.logHistory.map Emission.log ++
      [Emission.statusSnap s.status, Emission.progressSnap s.progress] ++
      s.downloads.map Emission.downloadSnap ∧
    (handle_stream s delivered).drop (snapshot_emissions s).length =
      delivered.map Emission.live := by
  constructor
  · rw [handle_stream, List.take_left]; rfl
  · rw [handle_stream, List.drop_left]

/-- C2: `start_scraper` under the single-flight mutex: a call while a run
is in flight is rejected with the busy error and changes nothing (and
spawns no worker); a call while idle resets the run state, spawns one
worker and is accepted, and a second call right after it is rejected and
changes nothing — so of two serialized calls from an idle state exactly
one succeeds and exactly one worker is spawned. -/
theorem start_scraper_single_flight (s : ServerState) :
    (s.running = true →
      start_scraper s = (s, false, some "Scraper is already running")) ∧
    (s.running = false →
      (start_scraper s).2.1 = true ∧
      (start_scraper s).2.2 = none ∧
      (start_scraper s).1.progress = initialProgress ∧
      (start_scraper s).1.downloads = [] ∧
      (start_scraper s).1.fileRegistry = [] ∧
      (start_scraper s).1.status = s.status ∧
      (start_scraper s).1.logHistory = s.logHistory ∧
      (start_scraper s).1.spawned = s.spawned + 1 ∧
      (start_scraper (start_scraper s).1).2.1 = false ∧
      (start_scraper (start_scraper s).1).1 = (start_scraper s).1 ∧
      (start_scraper (start_scraper s).1).2.2 = some "Scraper is already running") := by
  constructor
  · intro h
    simp [start_scraper, scraper_running, h]
  · intro h
    simp [start_scraper, scraper_running, reset_run_state, h]

/-- C2 witness: concrete busy and idle start calls. -/
theorem start_scraper_single_flight_witness :
    start_scraper { initState with running := true } =
      ({ initState with running := true }, false, some "Scraper is already running") ∧
    (start_scraper initState).2.1 = true ∧
    (start_scraper (start_scraper initState).1).2.1 = false := by
  have hbusy := (start_scraper_single_flight { initState with running := true }).1 rfl
  have hidle := (start_scraper_single_flight initState).2 rfl
  exact ⟨hbusy, hidle.1, hidle.2.2.2.2.2.2.2.2.1⟩

/-- C3: pushing any sequence of events into a fresh subscriber mailbox of
capacity 500 never blocks and always leaves exactly the most recent at
most 500 pushed events, in push order (a push onto a full mailbox evicts
exactly the oldest queued event). -/
theorem mailbox_drop_oldest_keeps_recent_suffix (evs : List BEvent) :
    (evs.foldl StreamClient.push ⟨true, []⟩).queue =
      evs.drop (evs.length - MAILBOX_CAPACITY) ∧
    (evs.foldl StreamClient.push ⟨true, []⟩).queue.length =
      min evs.length MAILBOX_CAPACITY := by
  have hcap : 0 < MAILBOX_CAPACITY := by decide
  have hq : (evs.foldl StreamClient.push ⟨true, []⟩).queue =
      evs.drop (evs.length - MAILBOX_CAPACITY) := by
    rw [foldl_push_alive evs []]
    exact foldl_pushBounded_drop MAILBOX_CAPACITY hcap evs
  refine ⟨hq, ?_⟩
  rw [hq, List.length_drop]
  omega

lemma pyInt_nonneg (q : ℚ) (h : 0 ≤ q) : 0 ≤ pyInt q := by
  unfold pyInt
  exact Int.tdiv_nonneg (Rat.num_nonneg.mpr h) (by positivity)

lemma pyOrQ_nonneg (v : Option ℚ) (d : ℚ) (hv : ∀ q ∈ v, 0 ≤ q) (hd : 0 ≤ d) :
    0 ≤ pyOrQ v d := by
  cases v with
  | none => exact hd
  | some q =>
    unfold pyOrQ
    by_cases hq : q = 0
    · simp [hq, hd]
    · simp only [hq, if_false]
      exact hv q rfl

/-- A payload whose fields are all absent, for concrete instantiations. -/
def payloadNone : ProgressPayload :=
  { total := none, completed := none, active := none, pending := none,
    percent := none, startedAt := none, stage := none, current := none,
    lastCompleted := none, message := none }

/-- A payload carrying an out-of-range percentage. -/
def payload150 : ProgressPayload := { payloadNone with percent := some 150 }

/-- A payload carrying a negative total. -/
def payloadNegTotal : ProgressPayload :=
  { payloadNone with total := some (-5), percent := some 1 }

/-- C4: the percentage of every broadcast progress event is the raw value
— the payload's percentage if usable, else 100 when the coerced total is
0 and `completed/total*100` otherwise — clamped into `[0, 100]`; in
particular it always lies within `[0, 100]`. -/
theorem progress_percent_in_range (now : String) (p : ProgressPayload) (s : ServerState) :
    0 ≤ ((update_progress_state now p s).2).percent ∧
    ((update_progress_state now p s).2).percent ≤ 100 ∧
    ((update_progress_state now p s).2).percent =
      max 0 (min 100 (pyOrQ p.percent
        (if pyInt (pyOrQ p.total 0) = 0 then 100
         else ((pyInt (pyOrQ p.completed 0) : ℚ) / (pyInt (pyOrQ p.total 0) : ℚ)) * 100))) ∧
    ((p.percent = none ∨ p.percent = some 0) → pyInt (pyOrQ p.total 0) = 0 →
      ((update_progress_state now p s).2).percent = 100) ∧
    (∀ q : ℚ, p.percent = some q → q ≠ 0 →
      ((update_progress_state now p s).2).percent = max 0 (min 100 q)) := by
  have hpe : ((update_progress_state now p s).2).percent =
      max 0 (min 100 (pyOrQ p.percent
        (if pyInt (pyOrQ p.total 0) = 0 then 100
         else ((pyInt (pyOrQ p.completed 0) : ℚ) / (pyInt (pyOrQ p.total 0) : ℚ)) * 100))) := rfl
  refine ⟨?_, ?_, hpe, ?_, ?_⟩
  · rw [hpe]; exact le_max_left 0 _
  · rw [hpe]
    exact max_le (by norm_num) (min_le_left 100 _)
  · intro hper htot
    rw [hpe, htot]
    rcases hper with h | h <;> rw [h] <;> norm_num [pyOrQ]
  · intro q hq hq0
    rw [hpe, hq]
    simp [pyOrQ, hq0]

/-- C4 witness: an absent percentage with total 0 yields 100; a raw
percentage of 150 is clamped to 100. -/
theorem progress_percent_in_range_witness :
    ((update_progress_state "t" payloadNone initState).2).percent = 100 ∧
    ((update_progress_state "t" payload150 initState).2).percent = 100 := by
  have h1 := (progress_percent_in_range "t" payloadNone initState).2.2.2.1
    (Or.inl rfl) (by decide)
  have h2 := (progress_percent_in_range "t" payload150 initState).2.2.2.2
    150 rfl (by norm_num)
  refine ⟨h1, ?_⟩
  rw [h2]
  norm_num

/-- C7 counterexample: a progress payload carrying `total = -5` produces a
broadcast progress event whose `total` is the negative integer `-5`, so
the counters of a ProgressEvent are not always non-negative. -/
theorem progress_counters_negative_cex :
    ((update_progress_state "t" payloadNegTotal initState).2).total = -5 ∧
    ((update_progress_state "t" payloadNegTotal initState).2).total < 0 := by
  constructor
  · rfl
  · decide

/-- C7 amended: the counters of a broadcast progress event are the
`int()`-truncations of the payload's values (with defaults 0, and
`max(total - completed - active, 0)` for an omitted pending), so they are
non-negative whenever every value the payload does supply is
non-negative; a payload may force them negative (see the
counterexample). -/
theorem progress_counters_nonneg_of_nonneg (now : String) (p : ProgressPayload)
    (s : ServerState)
    (ht : ∀ q ∈ p.total, 0 ≤ q) (hc : ∀ q ∈ p.completed, 0 ≤ q)
    (ha : ∀ q ∈ p.active, 0 ≤ q) (hp : ∀ q ∈ p.pending, 0 ≤ q) :
    0 ≤ ((update_progress_state now p s).2).total ∧
    0 ≤ ((update_progress_state now p s).2).completed ∧
    0 ≤ ((update_progress_state now p s).2).active ∧
    0 ≤ ((update_progress_state now p s).2).pending := by
  refine ⟨?_, ?_, ?_, ?_⟩
  · exact pyInt_nonneg _ (pyOrQ_nonneg p.total 0 ht le_rfl)
  · exact pyInt_nonneg _ (pyOrQ_nonneg p.completed 0 hc le_rfl)
  · exact pyInt_nonneg _ (pyOrQ_nonneg p.active 0 ha le_rfl)
  · refine pyInt_nonneg _ (pyOrQ_nonneg p.pending _ hp ?_)
    have hmax : (0 : Int) ≤ max (pyInt (pyOrQ p.total 0) - pyInt (pyOrQ p.completed 0)
        - pyInt (pyOrQ p.active 0)) 0 := le_max_right _ 0
    exact_mod_cast hmax

/-- C7 amended witness: the all-absent payload yields all-zero counters. -/
theorem progress_counters_nonneg_of_nonneg_witness :
    0 ≤ ((update_progress_state "t" payloadNone initState).2).total ∧
    0 ≤ ((update_progress_state "t" payloadNone initState).2).pending := by
  have h := progress_counters_nonneg_of_nonneg "t" payloadNone initState
    (by simp [payloadNone]) (by simp [payloadNone])
    (by simp [payloadNone]) (by simp [payloadNone])
  exact ⟨h.1, h.2.2.2⟩

/-- A file payload carrying only a path, for concrete instantiations. -/
def filePayloadA : FilePayload :=
  { path := some "/a", name := none, relativePath := none, sectionPath := none,
    extension := none, mime := none, sizeBytes := none, sizeHuman := none,
    resourceName := none, url := none, downloadedAt := none }

/-- C6 counterexample: the status event the supervisor broadcasts when
the worker exits carries no timestamp — `set_status` only emits `type`,
`status` and the caller's details, and no call site passes a `time`
detail — so not every broadcast event carries a timestamp. -/
theorem status_event_without_timestamp_cex :
    lastBroadcast (run_scraper_exit 0 initState) =
      some (.status "finished" [("code", JValue.num ((0 : Int) : ℚ))]) ∧
    hasTimestamp (.status "finished" [("code", JValue.num ((0 : Int) : ℚ))]) = false := by
  constructor
  · rfl
  · decide

/-- C6 amended: every `log`, `progress` and `download` event broadcast by
the system carries a timestamp, but `status` events carry one only if a
`"time"` detail is passed explicitly, which no call site does — so
broadcast status events carry no timestamp. -/
theorem broadcast_event_timestamps
    (now stream message : String) (extra : List (String × JValue))
    (p : ProgressPayload) (env : Env) (fi : FilePayload) (path : String)
    (st : String) (details : List (String × JValue)) (s : ServerState)
    (hfi : fi.path = some path) (hpath : path ≠ "")
    (hd : ∀ kv ∈ details, kv.1 ≠ "time") :
    (lastBroadcast (append_log now stream message extra s).1).map hasTimestamp =
      some true ∧
    (lastBroadcast (update_progress_state now p s).1).map hasTimestamp =
      some true ∧
    (lastBroadcast (register_download env now (some fi) s).1).map hasTimestamp =
      some true ∧
    (lastBroadcast (set_status st details s)).map hasTimestamp = some false := by
  refine ⟨?_, ?_, ?_, ?_⟩
  · show ((s.broadcasts ++ [_]).getLast?).map hasTimestamp = some true
    rw [List.getLast?_concat]
    rfl
  · show ((s.broadcasts ++ [_]).getLast?).map hasTimestamp = some true
    rw [List.getLast?_concat]
    rfl
  · have hreg : (register_download env now (some fi) s).1.broadcasts =
        s.broadcasts ++ [.download (mkDescriptor env now fi path).downloadedAt
          (mkDescriptor env now fi path)] := by
      simp [register_download, hfi, hpath]
    rw [lastBroadcast, hreg, List.getLast?_concat]
    rfl
  · rw [lastBroadcast, set_status, List.getLast?_concat]
    show some (hasTimestamp (.status st details)) = some false
    have hany : details.any (fun kv => kv.1 = "time") = false := by
      rw [List.any_eq_false]
      intro kv hkv
      simpa using hd kv hkv
    simp [hasTimestamp, hany]

/-- C6 amended witness: a concrete log broadcast carries a timestamp and a
concrete worker-exit status broadcast does not. -/
theorem broadcast_event_timestamps_witness :
    (lastBroadcast (append_log "t" "stdout" "m" [] initState).1).map hasTimestamp =
      some true ∧
    (lastBroadcast (set_status "finished" [("code", JValue.num 5)] initState)).map
      hasTimestamp = some false := by
  have h := broadcast_event_timestamps "t" "stdout" "m" [] payloadNone defaultEnv
    filePayloadA "/a" "finished" [("code", JValue.num 5)] initState rfl (by decide)
    (by intro kv hkv; rcases List.mem_singleton.mp hkv with rfl; decide)
  exact ⟨h.1, h.2.2.2⟩

/-- C1 counterexample: the raw non-JSON line `"Hello world"` arriving on
the stderr pump is not recorded in the log history and not broadcast at
all; the pump only prints `[scraper:stderr] Hello world` to the
supervisor's own stdout. -/
theorem raw_line_not_recorded_cex :
    (pump_line defaultEnv "t" "Hello world" none "stderr" initState).1.logHistory = [] ∧
    (pump_line defaultEnv "t" "Hello world" none "stderr" initState).1.broadcasts = [] ∧
    (pump_line defaultEnv "t" "Hello world" none "stderr" initState).2 =
      some "[scraper:stderr] Hello world" := by
  refine ⟨rfl, rfl, by decide⟩

/-- C1 amended: a raw output line that is not parseable as JSON (or whose
parsed value has no recognized `type`) leaves the whole run state — log
history and broadcasts included — unchanged; if the stripped line is
non-empty the pump instead prints it, right-stripped and prefixed with
`[scraper:<stream>]`, to the supervisor's own stdout. -/
theorem unstructured_line_console_only
    (env : Env) (now line name : String) (parsed : Option JValue) (s : ServerState)
    (h : parsed = none ∨ ∃ v, parsed = some v ∧ recognized_message v = false) :
    (pump_line env now line parsed name s).1 = s ∧
    (pump_line env now line parsed name s).1.logHistory = s.logHistory ∧
    (pump_line env now line parsed name s).1.broadcasts = s.broadcasts ∧
    (pyStrip line ≠ "" →
      (pump_line env now line parsed name s).2 =
        some ("[scraper:" ++ name ++ "] " ++ pyRstrip line)) := by
  have hproc : process_scraper_line env now line parsed s =
      (s, if pyStrip line = "" then true else false) := by
    by_cases hb : pyStrip line = ""
    · simp [process_scraper_line, hb]
    · rcases h with h | ⟨v, hv, hrec⟩
      · simp [process_scraper_line, hb, h]
      · simp [process_scraper_line, hb, hv, handle_unrecognized env now v s hrec]
  have hstate : (pump_line env now line parsed name s).1 = s := by
    by_cases hb : pyStrip line = ""
    · simp [pump_line, hproc, hb]
    · by_cases hr : pyRstrip line = ""
      · simp [pump_line, hproc, hb, hr]
      · simp [pump_line, hproc, hb, hr]
  refine ⟨hstate, by rw [hstate], by rw [hstate], ?_⟩
  intro hb
  have hr : pyRstrip line ≠ "" := fun hr0 => hb (pyStrip_empty_of_rstrip_empty line hr0)
  simp [pump_line, hproc, hb, hr]

/-- C1 amended witness: the concrete raw line from the counterexample. -/
theorem unstructured_line_console_only_witness :
    (pump_line defaultEnv "t" "Hello world" none "stderr" initState).1 = initState ∧
    (pump_line defaultEnv "t" "Hello world" none "stderr" initState).2 =
      some "[scraper:stderr] Hello world" := by
  have h := unstructured_line_console_only defaultEnv "t" "Hello world" "stderr"
    none initState (Or.inl rfl)
  refine ⟨h.1, ?_⟩
  have h2 := h.2.2.2 (by decide)
  rw [h2]
  decide

lemma register_download_downloads_eq (env : Env) (now : String) (fi : FilePayload)
    (path : String) (s : ServerState)
    (hfi : fi.path = some path) (hp : path ≠ "") :
    (register_download env now (some fi) s).1.downloads =
      ((mkDescriptor env now fi path) ::
        eraseLastP (fun d => d.id = fileIdOf path) s.downloads).take FILES_CAPACITY := by
  simp only [register_download, hfi]
  rw [if_neg hp]
  rfl

/-- C5: the download id is a pure function of the file path (the same
path always yields the same id), and after two `register_download` calls
naming the same path — starting from a state whose download list has at
most one entry with that id, the invariant the function itself maintains
— the download list holds exactly one entry with that id, at the front,
carrying the descriptor built from the latest call. -/
theorem register_download_upsert_by_path
    (env : Env) (now1 now2 : String) (fi1 fi2 : FilePayload) (s : ServerState)
    (path : String)
    (h1 : fi1.path = some path) (h2 : fi2.path = some path) (hp : path ≠ "")
    (hnd : (s.downloads.filter (fun d => d.id = fileIdOf path)).length ≤ 1) :
    (mkDescriptor env now1 fi1 path).id = (mkDescriptor env now2 fi2 path).id ∧
    ((register_download env now2 (some fi2)
        (register_download env now1 (some fi1) s).1).1.downloads.filter
        (fun d => d.id = fileIdOf path)).length = 1 ∧
    (register_download env now2 (some fi2)
        (register_download env now1 (some fi1) s).1).1.downloads.head? =
      some (mkDescriptor env now2 fi2 path) := by
  have hcap : 0 < FILES_CAPACITY := by decide
  have hid1 : (mkDescriptor env now1 fi1 path).id = fileIdOf path := rfl
  have hid2 : (mkDescriptor env now2 fi2 path).id = fileIdOf path := rfl
  have hreg1 : (register_download env now1 (some fi1) s).1.downloads =
      ((mkDescriptor env now1 fi1 path) ::
        eraseLastP (fun d => d.id = fileIdOf path) s.downloads).take FILES_CAPACITY :=
    register_download_downloads_eq env now1 fi1 path s h1 hp
  have hfilter1 : ((register_download env now1 (some fi1) s).1.downloads.filter
      (fun d => d.id = fileIdOf path)) = [mkDescriptor env now1 fi1 path] := by
    rw [hreg1]
    exact filter_take_cons_of_filter_nil _ _ _ _ hcap (by simp [hid1])
      (eraseLastP_filter_nil _ _ hnd)
  have hreg2 : (register_download env now2 (some fi2)
      (register_download env now1 (some fi1) s).1).1.downloads =
      ((mkDescriptor env now2 fi2 path) ::
        eraseLastP (fun d => d.id = fileIdOf path)
          (register_download env now1 (some fi1) s).1.downloads).take FILES_CAPACITY :=
    register_download_downloads_eq env now2 fi2 path _ h2 hp
  have hfilter2 : ((register_download env now2 (some fi2)
      (register_download env now1 (some fi1) s).1).1.downloads.filter
      (fun d => d.id = fileIdOf path)) = [mkDescriptor env now2 fi2 path] := by
    rw [hreg2]
    refine filter_take_cons_of_filter_nil _ _ _ _ hcap (by simp [hid2]) ?_
    refine eraseLastP_filter_nil _ _ ?_
    rw [hfilter1]
    exact le_refl 1
  refine ⟨hid1.trans hid2.symm, ?_, ?_⟩
  · rw [hfilter2]
    rfl
  · rw [hreg2]
    exact head?_take_cons _ _ _ hcap

/-- C5 witness: registering the same concrete path twice from the initial
state leaves exactly one matching entry. -/
theorem register_download_upsert_by_path_witness :
    ((register_download defaultEnv "t2" (some filePayloadA)
        (register_download defaultEnv "t1" (some filePayloadA) initState).1).1.downloads.filter
        (fun d => d.id = fileIdOf "/a")).length = 1 := by
  exact (register_download_upsert_by_path defaultEnv "t1" "t2" filePayloadA
    filePayloadA initState "/a" rfl rfl (by decide) (by decide)).2.1
